import Mathlib

/-!
A verification development for the `Ak-Army/cli` Go package (the variant of
`cli.go` that resolves a tree of named sub-commands against one shared
`flag.FlagSet`, together with `root.go` and `command.go`).

The Go code is shallowly embedded: reflection over struct values becomes an
explicit description of a Go struct shape (`FieldInfo`, `GoType`), the shared
`flag.FlagSet` becomes an explicit list of registrations plus a token-parsing
loop translated from the `flag` package, and the recursive resolver
`CLI.getSubCommand` becomes a state-passing recursive function.  Machine
integers never overflow in the embedded fragment, so `Nat`/`Int` are used
directly.  Output writers (`HelpWriter`, `ErrorWriter`) are modelled as lists
of recorded events; template rendering itself is presentation and is recorded
as an abstract help event rather than rendered text.
-/

namespace AkCli

/-! ## Go struct shapes

A Go struct is described field by field: the `flag` tag string, whether the
field is exported (`reflect.Value.CanInterface`), whether it is addressable
(`reflect.Value.CanAddr`), and its type.  A type is either exactly one of the
eight primitive kinds understood by the `switch val.Interface().(type)`
dispatch, a named non-struct type (which never matches that exact-type
switch, even when its underlying kind is primitive — Go type switches match
the dynamic type, not the underlying type), or a struct kind.  `fv` records
whether a pointer to the type implements `flag.Value`
(`String()` / `Set(string) error`); builtin primitive types can never carry
methods, so `prim` has no such flag. -/

inductive Prim where
  | intP
  | int64P
  | uintP
  | uint64P
  | float64P
  | boolP
  | stringP
  | durationP
deriving DecidableEq, Repr

structure FieldInfo where
  tag : String
  exported : Bool
  canAddr : Bool
deriving DecidableEq, Repr

inductive GoType where
  | prim (p : Prim)
  | custom (fv : Bool) (underlying : Option Prim)
  | structT (fv : Bool) (fields : List (FieldInfo × GoType))
deriving Repr

/-- Whether a pointer to the type implements `flag.Value`
(`addr.Type().Implements(flagValueType)`). -/
def GoType.fv : GoType → Bool
  | .prim _ => false
  | .custom b _ => b
  | .structT b _ => b

/-- `typ.Type.Kind() == reflect.Struct`. -/
def GoType.isStructKind : GoType → Bool
  | .structT _ _ => true
  | _ => false

/-- The fields of a struct kind (empty for non-struct kinds). -/
def GoType.structFields : GoType → List (FieldInfo × GoType)
  | .structT _ fs => fs
  | _ => []

/-- Which case of the exact-dynamic-type switch
`switch d := val.Interface().(type)` the value matches.  A named type
(`custom`) matches no case regardless of its underlying kind. -/
def GoType.primMatch : GoType → Option Prim
  | .prim p => some p
  | _ => none

/-- `strings.SplitN(tag, ",", 2)`: the flag name is everything before the
first comma, the usage text everything after it (empty if there is none). -/
def splitN2 (tag : String) : String × String :=
  let pre := tag.data.takeWhile (fun ch => ch ≠ ',')
  if pre.length = tag.data.length then (String.mk pre, "")
  else (String.mk pre, String.mk (tag.data.drop (pre.length + 1)))

/-! ## The flag-registration abstraction

`cli.flagSet` is a `flag.FlagSet`; a registration records the flag name, the
usage text and which registration path produced it: `fs.Var` (the generic
custom-value path) or one of the primitive `fs.XxxVar` calls. -/

inductive RegKind where
  | varReg
  | primReg (p : Prim)
deriving DecidableEq, Repr

structure FlagReg where
  name : String
  usage : String
  kind : RegKind
deriving DecidableEq, Repr

mutual
/-- The body of one iteration of the field loop of `CLI.defineFlagSet`
(cli.go): skip untagged non-struct fields, recurse transparently into
untagged struct fields, reject unexported and unaddressable tagged fields,
skip the `-` sentinel, qualify the name with the dotted sub-name, then
register — `fs.Var` for `flag.Value` implementers first, nested recursion
for tagged struct kinds, the exact-type primitive switch last. -/
def bindField : FieldInfo → GoType → String → List FlagReg × Option String
  | info, ty, subName =>
    if info.tag = "" then
      if ty.isStructKind then defineFlagSet ty.structFields ""
      else ([], none)
    else if !info.exported then ([], some "field is unexported")
    else if !info.canAddr then ([], some "field is unsupported type")
    else
      let nm0 := (splitN2 info.tag).1
      let usage := (splitN2 info.tag).2
      if nm0 = "-" then ([], none)
      else
        let nm := if subName ≠ "" then subName ++ "." ++ nm0 else nm0
        if ty.fv then ([⟨nm, usage, .varReg⟩], none)
        else if ty.isStructKind then defineFlagSet ty.structFields nm
        else
          match ty.primMatch with
          | some p => ([⟨nm, usage, .primReg p⟩], none)
          | none => ([], some ("field with flag tag value \"" ++ nm ++ "\" is of unsupported type"))
termination_by _ ty _ => sizeOf ty
decreasing_by
  all_goals simp_wf
  all_goals
    rcases ty with p | ⟨fvb, u⟩ | ⟨fvb, fs⟩ <;>
      simp_all [GoType.structFields, GoType.isStructKind]

/-- Translation of `CLI.defineFlagSet` (cli.go).  Returns the registrations
made, in order, together with the error aborting the loop, if any; on an
error the registrations made before it persist in the flag set exactly as
they do in Go, where `fs` is mutated in place.  `flag.FlagSet.Var` itself
panics on a redefined name; the model records both registrations instead
(the duplication is observable in the returned list). -/
def defineFlagSet : List (FieldInfo × GoType) → String → List FlagReg × Option String
  | [], _ => ([], none)
  | (info, ty) :: rest, subName =>
    match bindField info ty subName with
    | (regs, some e) => (regs, some e)
    | (regs, none) =>
      match defineFlagSet rest subName with
      | (regs2, err2) => (regs ++ regs2, err2)
termination_by fields _ => sizeOf fields
end

/-! ## Commands

A command (`command.go`) always has `Help`/`Synopsis`/`Run`; it optionally
implements `SubCommands` (then `sub` is `some` of its child mapping — Go's
`map[string]Command` is modelled as an association list with unique keys)
and optionally `ParseHelper` (then `ph` is `some` of its custom `Parse`).
The struct behind the command pointer is described by `fields`, and `runErr`
is the error `Run(ctx)` returns.  `id` identifies the command instance so
that theorems can speak about which command was run. -/

inductive Cmd where
  | mk (id : Nat) (fields : List (FieldInfo × GoType)) (runErr : Option String)
      (sub : Option (List (String × Cmd))) (ph : Option (List String → Option String))

def Cmd.id : Cmd → Nat
  | .mk i _ _ _ _ => i

def Cmd.fields : Cmd → List (FieldInfo × GoType)
  | .mk _ f _ _ _ => f

def Cmd.runErr : Cmd → Option String
  | .mk _ _ r _ _ => r

def Cmd.sub : Cmd → Option (List (String × Cmd))
  | .mk _ _ _ s _ => s

def Cmd.ph : Cmd → Option (List String → Option String)
  | .mk _ _ _ _ p => p

/-- Map lookup in an association list (`command.SubCommands()[name]`). -/
def lookupCmd (l : List (String × Cmd)) (n : String) : Option Cmd :=
  (l.find? (fun e => e.1 = n)).map (fun e => e.2)

/-! ## String helpers translated from the Go standard library

Only byte-level ASCII behaviour is exercised, so Go's byte indexing and
Lean's character lists coincide on every input the theorems touch. -/

/-- Whether `s` starts with `p` (`strings.HasPrefix s p`). -/
def listIsPre : List Char → List Char → Bool
  | [], _ => true
  | _ :: _, [] => false
  | a :: as, b :: bs => a = b && listIsPre as bs

def startsWith (s p : String) : Bool := listIsPre p.data s.data

/-- `strings.Split(s, sep)` for a one-character separator: empty pieces kept,
`Split("", sep) = [""]`. -/
def splitChar (sep : Char) : List Char → List (List Char)
  | [] => [[]]
  | c :: cs =>
    let r := splitChar sep cs
    if c = sep then [] :: r
    else
      match r with
      | [] => [[c]]
      | p :: ps => (c :: p) :: ps

def goSplit (s : String) (sep : Char) : List String :=
  (splitChar sep s.data).map String.mk

/-- `strings.TrimLeft(s, "-")`. -/
def trimLeftDash (s : String) : String :=
  String.mk (s.data.dropWhile (fun ch => ch = '-'))

def allDigits (cs : List Char) : Bool := !cs.isEmpty && cs.all (fun c => c.isDigit)

def digitsToNat (ds : List Char) : Nat :=
  ds.foldl (fun a c => a * 10 + (c.toNat - '0'.toNat)) 0

/-- `strconv.Atoi`: an optional sign followed by decimal digits, nothing
else.  (Overflow of 64-bit ints is not modelled; every offset the claims
exercise is tiny.) -/
def atoi (s : String) : Option Int :=
  match s.data with
  | [] => none
  | '-' :: ds => if allDigits ds then some (-(Int.ofNat (digitsToNat ds))) else none
  | '+' :: ds => if allDigits ds then some (Int.ofNat (digitsToNat ds)) else none
  | ds => if allDigits ds then some (Int.ofNat (digitsToNat ds)) else none

/-! ## Parsing tokens against the registered flags

Translation of `flag.(*FlagSet).Parse` with `ContinueOnError` (the zero
error-handling mode of the `flag.FlagSet` literal built in `New`).  Values
are recorded as `(flag name, raw string)` assignments; `setOk` models which
raw strings the typed `Set` accepts.  For kinds no claim exercises
(`float64`, `time.Duration`, custom `flag.Value` setters) the acceptance
test is a conservative simplification of `strconv`/`time.ParseDuration`. -/

def boolOk (v : String) : Bool :=
  v = "1" || v = "t" || v = "T" || v = "true" || v = "TRUE" || v = "True" ||
  v = "0" || v = "f" || v = "F" || v = "false" || v = "FALSE" || v = "False"

def intOk (v : String) : Bool :=
  match v.data with
  | '-' :: ds => allDigits ds
  | '+' :: ds => allDigits ds
  | ds => allDigits ds

def floatOkBody (ds : List Char) : Bool :=
  let ip := ds.takeWhile (fun c => c.isDigit)
  let rest := ds.drop ip.length
  match rest with
  | [] => !ip.isEmpty
  | '.' :: fp => (!ip.isEmpty || !fp.isEmpty) && fp.all (fun c => c.isDigit)
  | _ => false

def floatOk (v : String) : Bool :=
  match v.data with
  | '-' :: ds => floatOkBody ds
  | '+' :: ds => floatOkBody ds
  | ds => floatOkBody ds

def durOk (v : String) : Bool :=
  v = "0" ||
  (let num := v.data.takeWhile (fun c => c.isDigit || c = '.')
   let unit := String.mk (v.data.drop num.length)
   !num.isEmpty &&
     (unit = "ns" || unit = "us" || unit = "ms" || unit = "s" || unit = "m" || unit = "h"))

def setOk : RegKind → String → Bool
  | .varReg, _ => true
  | .primReg .stringP, _ => true
  | .primReg .boolP, v => boolOk v
  | .primReg .intP, v => intOk v
  | .primReg .int64P, v => intOk v
  | .primReg .uintP, v => allDigits v.data
  | .primReg .uint64P, v => allDigits v.data
  | .primReg .float64P, v => floatOk v
  | .primReg .durationP, v => durOk v

/-- One registered flag is a boolean flag exactly when it went through
`fs.BoolVar` (custom `flag.Value` registrations do not implement the
`boolFlag` interface used by the parser's special case). -/
def isBoolReg (k : RegKind) : Bool := k = RegKind.primReg Prim.boolP

/-- The repeated-`parseOne` loop of `flag.(*FlagSet).Parse`.  Returns the
accumulated assignments, the tokens left over (`fs.Args()`), and the error
that stopped parsing, if any. -/
def fsParseLoop (flags : List FlagReg) :
    List String → List (String × String) →
    List (String × String) × List String × Option String
  | [], acc => (acc, [], none)
  | tok :: restA, acc =>
    match tok.data with
    | '-' :: c2 :: cs =>
      if c2 = '-' && cs.isEmpty then (acc, restA, none)
      else
        let nmChars := if c2 = '-' then cs else c2 :: cs
        match nmChars with
        | [] => (acc, tok :: restA, some ("bad flag syntax: " ++ tok))
        | n0 :: ntail =>
          if n0 = '-' || n0 = '=' then (acc, tok :: restA, some ("bad flag syntax: " ++ tok))
          else
            let pre := ntail.takeWhile (fun c => c ≠ '=')
            let hasValue := pre.length ≠ ntail.length
            let value := String.mk (ntail.drop (pre.length + 1))
            let name := String.mk (n0 :: pre)
            match flags.find? (fun f => f.name = name) with
            | none =>
              if name = "help" || name = "h" then (acc, restA, some "flag: help requested")
              else (acc, restA, some ("flag provided but not defined: -" ++ name))
            | some reg =>
              if isBoolReg reg.kind then
                if hasValue then
                  if setOk reg.kind value then fsParseLoop flags restA (acc ++ [(name, value)])
                  else (acc, restA,
                    some ("invalid boolean value \"" ++ value ++ "\" for -" ++ name))
                else fsParseLoop flags restA (acc ++ [(name, "true")])
              else
                if hasValue then
                  if setOk reg.kind value then fsParseLoop flags restA (acc ++ [(name, value)])
                  else (acc, restA,
                    some ("invalid value \"" ++ value ++ "\" for flag -" ++ name))
                else
                  match restA with
                  | v :: restA2 =>
                    if setOk reg.kind v then fsParseLoop flags restA2 (acc ++ [(name, v)])
                    else (acc, restA2,
                      some ("invalid value \"" ++ v ++ "\" for flag -" ++ name))
                  | [] => (acc, [], some ("flag needs an argument: -" ++ name))
    | _ => (acc, tok :: restA, none)

/-! ## Resolver state

The mutable pieces of `CLI` that `getSubCommand` touches: the single shared
flag set (`cli.flagSet`, as its registration list, accumulated assignments
and leftover `Args()`), and `cli.lastCommandsName`.  `phCalls` records
invocations of a `ParseHelper`'s `Parse` (used only by the spec-modelled
variant below). -/

structure ResolveState where
  flags : List FlagReg
  assigns : List (String × String)
  fsArgs : List String
  lastCommandsName : List String
  phCalls : List (Nat × List String)
deriving DecidableEq, Repr

def initResolveState : ResolveState := ⟨[], [], [], [], []⟩

/-- `cli.flagSet.Parse(args)`. -/
def fsParse (s : ResolveState) (args : List String) : ResolveState × Option String :=
  match fsParseLoop s.flags args s.assigns with
  | (asg, rem, err) => ({ s with assigns := asg, fsArgs := rem }, err)

/-- `cli.getFlagSet(c)`: every command in the model is a pointer to a
struct, so the `reflect.Ptr` guard always passes and this is
`defineFlagSet(cli.flagSet, c, "")` appended into the shared flag set. -/
def getFlagSet (s : ResolveState) (c : Cmd) : ResolveState × Option String :=
  match defineFlagSet c.fields "" with
  | (regs, err) => ({ s with flags := s.flags ++ regs }, err)

/-- The `for name, c := range command.SubCommands()` loop body of
`CLI.getSubCommand` (cli.go).  Go iterates the map in unspecified order; the
model iterates the association list in order.  The recursive call
`cli.getSubCommand(subC, args[1:])` begins by clearing
`cli.lastCommandsName`, which is inlined at the call site here. -/
def gscLoop : List (String × Cmd) → ResolveState → String → List String →
    ResolveState × Option Cmd × Option String
  | [], s, _, _ => (s, none, none)
  | (name, c) :: es, s, a0, rest =>
    let s1 := { s with lastCommandsName := s.lastCommandsName ++ [name] }
    if name = a0 then
      match getFlagSet s1 c with
      | (s2, some e) => (s2, some c, some e)
      | (s2, none) =>
        match c.sub with
        | some subEntries =>
          match rest with
          | [] => (s2, some c, some "missing sub command")
          | r0 :: rr =>
            -- `subC, err := cli.getSubCommand(subC, args[1:])`; then:
            -- a non-nil subC clears lastCommandsName; a non-nil err returns
            -- subC (or c when subC is nil) with it; a nil subC is
            -- "wrong sub command".  The four cases are spelled out.
            match gscLoop subEntries { s2 with lastCommandsName := [] } r0 rr with
            | (rs, some sc, some e) => ({ rs with lastCommandsName := [] }, some sc, some e)
            | (rs, none, some e) => (rs, some c, some e)
            | (rs, none, none) => (rs, some c, some "wrong sub command")
            | (rs, some sc, none) => ({ rs with lastCommandsName := [] }, some sc, none)
        | none =>
          match fsParse s2 rest with
          | (ps, some e) => (ps, some c, some e)
          | (ps, none) => (ps, some c, none)
    else gscLoop es s1 a0 rest
termination_by entries _ _ rest => (rest.length, entries.length)
decreasing_by
  all_goals simp_wf
  · apply Prod.Lex.left
    simp
  · apply Prod.Lex.right
    omega

/-- `CLI.getSubCommand(command, args)`: clears `cli.lastCommandsName`, then
runs the loop.  `args` is non-empty at every Go call site (`args[0]` would
otherwise panic); the head and tail are therefore taken separately. -/
def getSubCommand (entries : List (String × Cmd)) (s : ResolveState)
    (a0 : String) (rest : List String) : ResolveState × Option Cmd × Option String :=
  gscLoop entries { s with lastCommandsName := [] } a0 rest

/-! ## The root command (root.go)

`Root.subCommands` is a `map[string]Command`; the model keeps insertion
order in an association list whose keys `AddCommand` keeps unique, so map
lookup is first-match lookup. -/

structure Root where
  name : String
  version : String
  description : String
  authors : List String
  subCommands : List (String × Cmd)

/-- `Root.AddCommand`: refuses (and does not mutate) when the name is
already registered, otherwise inserts the one new entry and reports true. -/
def Root.AddCommand (r : Root) (n : String) (c : Cmd) : Root × Bool :=
  if (lookupCmd r.subCommands n).isSome then (r, false)
  else ({ r with subCommands := r.subCommands ++ [(n, c)] }, true)

/-! ## Completion detection (`CLI.isCompleteStarted`) -/

/-- The two completion environment variables, as `os.Getenv` delivers them
(a missing variable reads as `""`). -/
structure Env where
  compLine : String
  compPoint : String

/-- Translation of `CLI.isCompleteStarted`: completion mode starts exactly
when `COMP_LINE` is non-empty; the line is cut at `COMP_POINT` only when
that parses as an integer `p` with `0 < p < len(line)`. -/
def isCompleteStarted (env : Env) : Option String :=
  if env.compLine = "" then none
  else
    match atoi env.compPoint with
    | some point =>
      if 0 < point ∧ point < (env.compLine.data.length : Int) then
        some (String.mk (env.compLine.data.take point.toNat))
      else some env.compLine
    | none => some env.compLine

/-! ## The CLI and its `Run` (cli.go) -/

/-- `flag.(*FlagSet).VisitAll` visits flags sorted by name; `sortFlags` is
that lexicographic insertion sort. -/
def charListLt : List Char → List Char → Bool
  | [], [] => false
  | [], _ :: _ => true
  | _ :: _, [] => false
  | a :: as, b :: bs => if a < b then true else if b < a then false else charListLt as bs

def regNameLt (a b : FlagReg) : Bool := charListLt a.name.data b.name.data

def insertReg (f : FlagReg) : List FlagReg → List FlagReg
  | [] => [f]
  | g :: gs => if regNameLt f g then f :: g :: gs else g :: insertReg f gs

def sortFlags : List FlagReg → List FlagReg
  | [] => []
  | f :: fs => insertReg f (sortFlags fs)

/-- The configuration of a `CLI` value relevant to `Run`: its root, the
default command and the `AutoComplete` switch.  The writers are modelled as
event lists in `RunOutcome`. -/
structure CLI where
  root : Root
  defaultCommand : String
  autoComplete : Bool

/-- Which command `cli.help(c, err)` renders: the root, a resolved command
(by id), or a nil command (unreachable from `Run`, kept for faithfulness). -/
inductive HelpT where
  | rootT
  | cmdT (id : Nat)
  | nilT
deriving DecidableEq, Repr

def helpTOf : Option Cmd → HelpT
  | some c => .cmdT c.id
  | none => .nilT

/-- Everything observable about one `CLI.Run` call: the final resolver
state, the ids of commands whose `Run(ctx)` was invoked (in order), the
`cli.help(c, err)` calls made, and the raw candidate lines the completion
branch writes to `HelpWriter`. -/
structure RunOutcome where
  res : ResolveState
  ranIds : List Nat
  helpCalls : List (HelpT × Option String)
  compOut : List String
deriving DecidableEq, Repr

def emptyOutcome : RunOutcome := ⟨initResolveState, [], [], []⟩

/-- The body of `CLI.Run` after completion detection: append the default
command to a bare argv, resolve, then either answer the completion query or
dispatch.  An argv shorter than two entries after the append never occurs
for a real `os.Args` (Go would panic indexing `args[0]`). -/
def runArgs (cli : CLI) (doComplete : Bool) (args0 : List String) : RunOutcome :=
  let args := if args0.length = 1 then args0 ++ [cli.defaultCommand] else args0
  match args with
  | [] => emptyOutcome
  | [_] => emptyOutcome
  | _prog :: a0 :: rest =>
    match getSubCommand cli.root.subCommands initResolveState a0 rest with
    | (s, c, err) =>
      if doComplete then
        let lastArg := trimLeftDash (((a0 :: rest).getLast?).getD a0)
        let out :=
          if s.lastCommandsName.isEmpty then
            ((sortFlags s.flags).filter (fun f => startsWith f.name lastArg)).map
              (fun f => "-" ++ f.name ++ "\n")
          else
            (s.lastCommandsName.filter (fun n => startsWith n lastArg)).map (fun n => n ++ "\n")
        ⟨s, [], [], out⟩
      else
        match err with
        | some e => ⟨s, [], [(helpTOf c, some e)], []⟩
        | none =>
          match c with
          | none => ⟨s, [], [(.rootT, none)], []⟩
          | some cc =>
            match cc.runErr with
            | some e => ⟨s, [cc.id], [(.cmdT cc.id, some e)], []⟩
            | none => ⟨s, [cc.id], [], []⟩

/-- Translation of `CLI.Run`: when completion is signalled and
`AutoComplete` is off, return at once; when it is on, the split completion
line replaces argv and the completion branch answers; otherwise dispatch the
given argv. -/
def CLI.Run (cli : CLI) (env : Env) (argv : List String) : RunOutcome :=
  match isCompleteStarted env with
  | some line =>
    if cli.autoComplete then runArgs cli true (goSplit line ' ')
    else emptyOutcome
  | none => runArgs cli false argv

/-! ## The ParseHelper step (spec-modelled)

`ParseHelper` is declared in command.go, but the code that invokes it after
a leaf's flags parse is not among the sources; the resolver variant below
adds that one step to `gscLoop`, modelled from the spec: "On successful leaf
resolution, if the leaf also satisfies ParseHelper, its custom `Parse` is
invoked with the remaining non-flag arguments; a failure here is reported
identically to a flag-parse failure", and "The leaf's `Run` is invoked only
after both automatic and custom parsing succeed." -/

/-- Modelled from the spec: `gscLoop` with the missing ParseHelper
invocation after a successful `cli.flagSet.Parse` — the leaf's custom
`Parse` receives `cli.flagSet.Args()` and its error is returned attached to
the leaf exactly like a flag-parse error. -/
def gscLoopPH : List (String × Cmd) → ResolveState → String → List String →
    ResolveState × Option Cmd × Option String
  | [], s, _, _ => (s, none, none)
  | (name, c) :: es, s, a0, rest =>
    let s1 := { s with lastCommandsName := s.lastCommandsName ++ [name] }
    if name = a0 then
      match getFlagSet s1 c with
      | (s2, some e) => (s2, some c, some e)
      | (s2, none) =>
        match c.sub with
        | some subEntries =>
          match rest with
          | [] => (s2, some c, some "missing sub command")
          | r0 :: rr =>
            match gscLoopPH subEntries { s2 with lastCommandsName := [] } r0 rr with
            | (rs, some sc, some e) => ({ rs with lastCommandsName := [] }, some sc, some e)
            | (rs, none, some e) => (rs, some c, some e)
            | (rs, none, none) => (rs, some c, some "wrong sub command")
            | (rs, some sc, none) => ({ rs with lastCommandsName := [] }, some sc, none)
        | none =>
          match fsParse s2 rest with
          | (ps, some e) => (ps, some c, some e)
          | (ps, none) =>
            match c.ph with
            | some h =>
              match h ps.fsArgs with
              | some e =>
                ({ ps with phCalls := ps.phCalls ++ [(c.id, ps.fsArgs)] }, some c, some e)
              | none =>
                ({ ps with phCalls := ps.phCalls ++ [(c.id, ps.fsArgs)] }, some c, none)
            | none => (ps, some c, none)
    else gscLoopPH es s1 a0 rest
termination_by entries _ _ rest => (rest.length, entries.length)
decreasing_by
  all_goals simp_wf
  · apply Prod.Lex.left
    simp
  · apply Prod.Lex.right
    omega

/-- Modelled from the spec: `getSubCommand` over `gscLoopPH`. -/
def getSubCommandPH (entries : List (String × Cmd)) (s : ResolveState)
    (a0 : String) (rest : List String) : ResolveState × Option Cmd × Option String :=
  gscLoopPH entries { s with lastCommandsName := [] } a0 rest

/-- Modelled from the spec: `runArgs` dispatching through the
ParseHelper-aware resolver. -/
def runArgsPH (cli : CLI) (doComplete : Bool) (args0 : List String) : RunOutcome :=
  let args := if args0.length = 1 then args0 ++ [cli.defaultCommand] else args0
  match args with
  | [] => emptyOutcome
  | [_] => emptyOutcome
  | _prog :: a0 :: rest =>
    match getSubCommandPH cli.root.subCommands initResolveState a0 rest with
    | (s, c, err) =>
      if doComplete then
        let lastArg := trimLeftDash (((a0 :: rest).getLast?).getD a0)
        let out :=
          if s.lastCommandsName.isEmpty then
            ((sortFlags s.flags).filter (fun f => startsWith f.name lastArg)).map
              (fun f => "-" ++ f.name ++ "\n")
          else
            (s.lastCommandsName.filter (fun n => startsWith n lastArg)).map (fun n => n ++ "\n")
        ⟨s, [], [], out⟩
      else
        match err with
        | some e => ⟨s, [], [(helpTOf c, some e)], []⟩
        | none =>
          match c with
          | none => ⟨s, [], [(.rootT, none)], []⟩
          | some cc =>
            match cc.runErr with
            | some e => ⟨s, [cc.id], [(.cmdT cc.id, some e)], []⟩
            | none => ⟨s, [cc.id], [], []⟩

/-- Modelled from the spec: `CLI.Run` dispatching through the
ParseHelper-aware resolver. -/
def CLI.RunPH (cli : CLI) (env : Env) (argv : List String) : RunOutcome :=
  match isCompleteStarted env with
  | some line =>
    if cli.autoComplete then runArgsPH cli true (goSplit line ' ')
    else emptyOutcome
  | none => runArgsPH cli false argv

/-- Following the spec's words, for comparison with the code: walk the
tokens before the completed one from the root by exact name matching; the
result is `some children` when the last fully-resolved node still has
children (the root included) and `none` when it is a leaf. -/
def specLastNodeSub (cs : List (String × Cmd)) : List String → Option (List (String × Cmd))
  | [] => some cs
  | t :: ts =>
    match lookupCmd cs t with
    | some c =>
      match c.sub with
      | some cs2 => specLastNodeSub cs2 ts
      | none => none
    | none => some cs

/-! ## Sanity evaluations of the embedded collaborators -/

example : goSplit "prog b x" ' ' = ["prog", "b", "x"] := by decide
example : goSplit "prog b " ' ' = ["prog", "b", ""] := by decide
example : goSplit "" ' ' = [""] := by decide
example : atoi "12" = some 12 := by decide
example : atoi "-3" = some (-3) := by decide
example : atoi "" = none := by decide
example : atoi "4x" = none := by decide
example : fsParseLoop [] [] [] = ([], [], none) := by rfl
example : fsParse ⟨[], [], [], ["x"], []⟩ [] = (⟨[], [], [], ["x"], []⟩, none) := by rfl

example : defineFlagSet [] "" = ([], none) := by simp [defineFlagSet]

example :
    defineFlagSet [(⟨"av, usage", true, true⟩, .prim .stringP)] "" =
      ([⟨"av", " usage", .primReg .stringP⟩], none) := by
  simp [defineFlagSet, bindField, splitN2, GoType.fv, GoType.isStructKind, GoType.primMatch]

/-! ## One-step characterisations of the resolver loop

`gscLoop` is defined by well-founded recursion, so concrete runs and
inductive arguments go through these equations, one loop iteration at a
time. -/

theorem gscLoop_nil (s : ResolveState) (a0 : String) (rest : List String) :
    gscLoop [] s a0 rest = (s, none, none) := by
  rw [gscLoop]

theorem gscLoop_skip (name : String) (c : Cmd) (es : List (String × Cmd))
    (s : ResolveState) (a0 : String) (rest : List String) (h : name ≠ a0) :
    gscLoop ((name, c) :: es) s a0 rest =
      gscLoop es { s with lastCommandsName := s.lastCommandsName ++ [name] } a0 rest := by
  rw [gscLoop]
  simp [h]

theorem gscLoop_bindErr (c : Cmd) (es : List (String × Cmd)) (s : ResolveState)
    (a0 : String) (rest : List String) (regs : List FlagReg) (e : String)
    (hb : defineFlagSet c.fields "" = (regs, some e)) :
    gscLoop ((a0, c) :: es) s a0 rest =
      ({ s with flags := s.flags ++ regs,
                lastCommandsName := s.lastCommandsName ++ [a0] }, some c, some e) := by
  rw [gscLoop]
  simp [getFlagSet, hb]

theorem gscLoop_missingSub (c : Cmd) (es : List (String × Cmd)) (s : ResolveState)
    (a0 : String) (regs : List FlagReg) (subE : List (String × Cmd))
    (hb : defineFlagSet c.fields "" = (regs, none)) (hs : c.sub = some subE) :
    gscLoop ((a0, c) :: es) s a0 [] =
      ({ s with flags := s.flags ++ regs,
                lastCommandsName := s.lastCommandsName ++ [a0] },
        some c, some "missing sub command") := by
  rw [gscLoop]
  simp [getFlagSet, hb, hs]

theorem gscLoop_leaf (c : Cmd) (es : List (String × Cmd)) (s : ResolveState)
    (a0 : String) (rest : List String) (regs : List FlagReg)
    (ps : ResolveState) (perr : Option String)
    (hb : defineFlagSet c.fields "" = (regs, none)) (hs : c.sub = none)
    (hp : fsParse { s with flags := s.flags ++ regs,
                           lastCommandsName := s.lastCommandsName ++ [a0] } rest = (ps, perr)) :
    gscLoop ((a0, c) :: es) s a0 rest = (ps, some c, perr) := by
  rw [gscLoop]
  simp [getFlagSet, hb, hs, hp]
  cases perr <;> simp_all

theorem gscLoop_recurse (c : Cmd) (es : List (String × Cmd)) (s : ResolveState)
    (a0 r0 : String) (rr : List String) (regs : List FlagReg)
    (subE : List (String × Cmd)) (rs : ResolveState) (subC : Option Cmd)
    (err : Option String)
    (hb : defineFlagSet c.fields "" = (regs, none)) (hs : c.sub = some subE)
    (hrec : gscLoop subE
        { s with flags := s.flags ++ regs, lastCommandsName := [] } r0 rr = (rs, subC, err)) :
    gscLoop ((a0, c) :: es) s a0 (r0 :: rr) =
      (if subC.isSome then { rs with lastCommandsName := [] } else rs,
       match subC, err with
       | some sc, some e => (some sc, some e)
       | none, some e => (some c, some e)
       | none, none => (some c, some "wrong sub command")
       | some sc, none => (some sc, none)) := by
  rw [gscLoop]
  simp only [getFlagSet, hb, hs]
  simp only [↓reduceIte]
  rcases subC with _ | sc <;> rcases err with _ | e <;> simp [hrec]

/-! ## Characterisations of the binder -/

theorem defineFlagSet_nil (sub : String) : defineFlagSet [] sub = ([], none) := by
  rw [defineFlagSet]

theorem defineFlagSet_cons (info : FieldInfo) (ty : GoType)
    (rest : List (FieldInfo × GoType)) (sub : String) :
    defineFlagSet ((info, ty) :: rest) sub =
      (match bindField info ty sub with
       | (regs, some e) => (regs, some e)
       | (regs, none) => (regs ++ (defineFlagSet rest sub).1, (defineFlagSet rest sub).2)) := by
  rw [defineFlagSet]

theorem bindField_unexported (info : FieldInfo) (ty : GoType) (sub : String)
    (h1 : info.tag ≠ "") (h2 : info.exported = false) :
    bindField info ty sub = ([], some "field is unexported") := by
  rw [bindField]
  simp [h1, h2]

theorem bindField_sentinel (info : FieldInfo) (ty : GoType) (sub : String)
    (h1 : (splitN2 info.tag).1 = "-") (h2 : info.exported = true) (h3 : info.canAddr = true) :
    bindField info ty sub = ([], none) := by
  have htag : info.tag ≠ "" := by
    intro h0
    rw [h0] at h1
    simp [splitN2] at h1
  rw [bindField]
  simp [htag, h1, h2, h3]

theorem bindField_var (info : FieldInfo) (ty : GoType) (sub : String)
    (h1 : info.tag ≠ "") (h2 : info.exported = true) (h3 : info.canAddr = true)
    (h4 : (splitN2 info.tag).1 ≠ "-") (h5 : ty.fv = true) :
    bindField info ty sub =
      ([⟨if sub ≠ "" then sub ++ "." ++ (splitN2 info.tag).1 else (splitN2 info.tag).1,
         (splitN2 info.tag).2, .varReg⟩], none) := by
  rw [bindField]
  simp [h1, h2, h3, h4, h5]

theorem defineFlagSet_append_clean (xs ys : List (FieldInfo × GoType)) (sub : String)
    (h : (defineFlagSet xs sub).2 = none) :
    defineFlagSet (xs ++ ys) sub =
      ((defineFlagSet xs sub).1 ++ (defineFlagSet ys sub).1, (defineFlagSet ys sub).2) := by
  induction xs with
  | nil => simp [defineFlagSet_nil]
  | cons hd tl ih =>
    rcases hd with ⟨info, ty⟩
    rcases hbf : bindField info ty sub with ⟨regs, _ | e⟩
    · have hclean : (defineFlagSet tl sub).2 = none := by
        rw [defineFlagSet_cons, hbf] at h
        exact h
      rw [List.cons_append, defineFlagSet_cons, hbf, ih hclean,
        defineFlagSet_cons, hbf]
      simp [List.append_assoc]
    · rw [defineFlagSet_cons, hbf] at h
      simp at h

theorem defineFlagSet_append_err (xs ys : List (FieldInfo × GoType)) (sub : String)
    (h : (defineFlagSet xs sub).2 ≠ none) :
    defineFlagSet (xs ++ ys) sub = defineFlagSet xs sub := by
  induction xs with
  | nil => simp [defineFlagSet_nil] at h
  | cons hd tl ih =>
    rcases hd with ⟨info, ty⟩
    rcases hbf : bindField info ty sub with ⟨regs, _ | e⟩
    · have h' : (defineFlagSet tl sub).2 ≠ none := by
        rw [defineFlagSet_cons, hbf] at h
        simpa using h
      rw [List.cons_append, defineFlagSet_cons, hbf, ih h', defineFlagSet_cons, hbf]
    · rw [List.cons_append, defineFlagSet_cons, hbf, defineFlagSet_cons, hbf]

/-! ## Claims C4, C5, C6 — the field binder -/

/-- Claim C4: every flag-tagged field whose address type implements
`flag.Value` is registered through the generic custom-value path (`fs.Var`,
a `varReg` registration), and the exact-type primitive switch is not
consulted: `ty` ranges over all types with `ty.fv = true`, including
`GoType.custom true (some p)` whose underlying kind is primitive, and the
produced registration is the single `varReg` entry, never a `primReg`. -/
theorem c4_custom_value_precedence (info : FieldInfo) (ty : GoType) (sub : String)
    (rest : List (FieldInfo × GoType))
    (h1 : info.tag ≠ "") (h2 : info.exported = true) (h3 : info.canAddr = true)
    (h4 : (splitN2 info.tag).1 ≠ "-") (h5 : ty.fv = true) :
    defineFlagSet ((info, ty) :: rest) sub =
      (⟨(if sub ≠ "" then sub ++ "." ++ (splitN2 info.tag).1 else (splitN2 info.tag).1),
          (splitN2 info.tag).2, RegKind.varReg⟩ :: (defineFlagSet rest sub).1,
        (defineFlagSet rest sub).2) := by
  rw [defineFlagSet_cons, bindField_var info ty sub h1 h2 h3 h4 h5]
  simp

/-- Witness for C4: a named custom `flag.Value` type with underlying kind
`string` is bound through `fs.Var`, not `fs.StringVar`. -/
theorem c4_custom_value_precedence_witness :
    defineFlagSet [(⟨"echoDate, a date", true, true⟩, .custom true (some .stringP))] "" =
      ([⟨"echoDate", " a date", RegKind.varReg⟩], none) := by
  have h := c4_custom_value_precedence ⟨"echoDate, a date", true, true⟩
    (.custom true (some .stringP)) "" [] (by decide) rfl rfl (by decide) rfl
  have e1 : splitN2 "echoDate, a date" = ("echoDate", " a date") := by decide
  rw [defineFlagSet_nil] at h
  simpa [e1] using h

/-- Claim C5 counterexample: the `CanInterface` check runs before the `-`
sentinel check, so binding an *unexported* field tagged `-` fails with
"field is unexported" — the claim asserts binding never fails because of a
sentinel-tagged field, including unexported ones. -/
theorem c5_counterexample :
    defineFlagSet [(⟨"-", false, true⟩, .prim .stringP)] "" =
      ([], some "field is unexported") ∧
    (defineFlagSet [(⟨"-", false, true⟩, .prim .stringP)] "").2 ≠ none := by
  have hbf := bindField_unexported ⟨"-", false, true⟩ (.prim .stringP) "" (by decide) rfl
  have h : defineFlagSet [(⟨"-", false, true⟩, .prim .stringP)] "" =
      ([], some "field is unexported") := by
    rw [defineFlagSet_cons, hbf]
  exact ⟨h, by simp [h]⟩

/-- Claim C5 (amended): for every *exported, addressable* struct field whose
flag tag name is the exclusion sentinel `-`, binding registers no flag for
that field regardless of its type, and binding does not fail because of it:
the binding is exactly the binding of the remaining fields. -/
theorem c5_exclusion_sentinel (info : FieldInfo) (ty : GoType) (sub : String)
    (rest : List (FieldInfo × GoType))
    (h1 : (splitN2 info.tag).1 = "-") (h2 : info.exported = true) (h3 : info.canAddr = true) :
    defineFlagSet ((info, ty) :: rest) sub = defineFlagSet rest sub := by
  rw [defineFlagSet_cons, bindField_sentinel info ty sub h1 h2 h3]
  rcases h : defineFlagSet rest sub with ⟨r1, r2⟩
  simp [h]

/-- Witness for C5 (amended) at a sentinel-tagged field of an otherwise
unsupported type, which would make binding fail were it registered. -/
theorem c5_exclusion_sentinel_witness :
    defineFlagSet [(⟨"-", true, true⟩, .custom false none)] "" = ([], none) := by
  have h := c5_exclusion_sentinel ⟨"-", true, true⟩ (.custom false none) "" []
    (by decide) rfl rfl
  rw [defineFlagSet_nil] at h
  exact h

/-- Claim C6: binding a struct that contains an unexported field with a
non-empty flag tag always fails (never a silent skip); when the fields
before it bind cleanly, the error is exactly "field is unexported" and the
registrations are exactly those of the preceding fields — none for the
unexported field itself. -/
theorem c6_unexported_field (pre post : List (FieldInfo × GoType))
    (info : FieldInfo) (ty : GoType) (sub : String)
    (h1 : info.tag ≠ "") (h2 : info.exported = false) :
    (defineFlagSet (pre ++ (info, ty) :: post) sub).2 ≠ none ∧
    ((defineFlagSet pre sub).2 = none →
      defineFlagSet (pre ++ (info, ty) :: post) sub =
        ((defineFlagSet pre sub).1, some "field is unexported")) := by
  have hbf := bindField_unexported info ty sub h1 h2
  have hcons : defineFlagSet ((info, ty) :: post) sub = ([], some "field is unexported") := by
    rw [defineFlagSet_cons, hbf]
  constructor
  · by_cases hpre : (defineFlagSet pre sub).2 = none
    · rw [defineFlagSet_append_clean pre _ sub hpre, hcons]
      simp
    · rw [defineFlagSet_append_err pre _ sub hpre]
      exact hpre
  · intro hpre
    rw [defineFlagSet_append_clean pre _ sub hpre, hcons]
    simp

/-- Witness for C6: one clean `int` field followed by an unexported tagged
field — binding registers the first flag and fails on the second. -/
theorem c6_unexported_field_witness :
    defineFlagSet [(⟨"ok, fine", true, true⟩, .prim .intP),
        (⟨"hidden, hid", false, true⟩, .prim .stringP)] "" =
      ([⟨"ok", " fine", .primReg .intP⟩], some "field is unexported") := by
  have hp : defineFlagSet [(⟨"ok, fine", true, true⟩, .prim .intP)] "" =
      ([⟨"ok", " fine", .primReg .intP⟩], none) := by
    simp [defineFlagSet, bindField, splitN2, GoType.fv, GoType.isStructKind, GoType.primMatch]
  have h := (c6_unexported_field [(⟨"ok, fine", true, true⟩, .prim .intP)] []
    ⟨"hidden, hid", false, true⟩ (.prim .stringP) "" (by decide) rfl).2 (by simp [hp])
  simpa [hp] using h

/-! ## Claim C3 — command registration at the root -/

theorem lookupCmd_nil (m : String) : lookupCmd [] m = none := rfl

theorem lookupCmd_cons (k : String) (d : Cmd) (tl : List (String × Cmd)) (m : String) :
    lookupCmd ((k, d) :: tl) m = if k = m then some d else lookupCmd tl m := by
  by_cases hk : k = m <;> simp [lookupCmd, List.find?, hk]

theorem lookupCmd_append_self (l : List (String × Cmd)) (n : String) (c : Cmd)
    (h : lookupCmd l n = none) : lookupCmd (l ++ [(n, c)]) n = some c := by
  induction l with
  | nil => simp [lookupCmd_cons, lookupCmd_nil]
  | cons hd tl ih =>
    rcases hd with ⟨k, d⟩
    rw [lookupCmd_cons] at h
    rw [List.cons_append, lookupCmd_cons]
    by_cases hk : k = n
    · rw [if_pos hk] at h
      simp at h
    · rw [if_neg hk] at h ⊢
      exact ih h

theorem lookupCmd_append_other (l : List (String × Cmd)) (n m : String) (c : Cmd)
    (hm : m ≠ n) : lookupCmd (l ++ [(n, c)]) m = lookupCmd l m := by
  induction l with
  | nil =>
    rw [List.nil_append, lookupCmd_cons, if_neg (fun h => hm h.symm)]
  | cons hd tl ih =>
    rcases hd with ⟨k, d⟩
    rw [List.cons_append, lookupCmd_cons, lookupCmd_cons]
    by_cases hk : k = m
    · rw [if_pos hk, if_pos hk]
    · rw [if_neg hk, if_neg hk]
      exact ih

/-- Claim C3: `AddCommand` on a name already present returns `false` and
leaves the mapping unchanged (the first registration stays intact); on a
fresh name it returns `true`, appends exactly that one entry, the new name
looks up to the new command, and every other name's lookup is unchanged. -/
theorem c3_addCommand (r : Root) (n : String) (c : Cmd) :
    ((lookupCmd r.subCommands n).isSome = true → r.AddCommand n c = (r, false)) ∧
    (lookupCmd r.subCommands n = none →
      (r.AddCommand n c).2 = true ∧
      (r.AddCommand n c).1.subCommands = r.subCommands ++ [(n, c)] ∧
      lookupCmd (r.AddCommand n c).1.subCommands n = some c ∧
      ∀ m, m ≠ n → lookupCmd (r.AddCommand n c).1.subCommands m = lookupCmd r.subCommands m) := by
  constructor
  · intro h
    simp [Root.AddCommand, h]
  · intro h
    refine ⟨?_, ?_, ?_, ?_⟩ <;> simp [Root.AddCommand, h]
    · exact lookupCmd_append_self r.subCommands n c h
    · intro m hm
      exact lookupCmd_append_other r.subCommands n m c hm

/-- Witness for C3: re-registering "echo" is refused without mutation;
registering a fresh name appends it. -/
theorem c3_addCommand_witness :
    Root.AddCommand ⟨"p", "1", "", [], [("echo", .mk 1 [] none none none)]⟩ "echo"
        (.mk 2 [] none none none) =
      (⟨"p", "1", "", [], [("echo", .mk 1 [] none none none)]⟩, false) ∧
    (Root.AddCommand ⟨"p", "1", "", [], [("echo", .mk 1 [] none none none)]⟩ "list"
        (.mk 2 [] none none none)).1.subCommands =
      [("echo", .mk 1 [] none none none), ("list", .mk 2 [] none none none)] := by
  constructor
  · exact (c3_addCommand ⟨"p", "1", "", [], [("echo", .mk 1 [] none none none)]⟩ "echo"
      (.mk 2 [] none none none)).1 (by simp [lookupCmd, List.find?])
  · exact ((c3_addCommand ⟨"p", "1", "", [], [("echo", .mk 1 [] none none none)]⟩ "list"
      (.mk 2 [] none none none)).2 (by simp [lookupCmd, List.find?])).2.1

/-! ## Claim C10 — completion-mode detection -/

/-- Claim C10: completion mode is entered exactly when `COMP_LINE` is
non-empty; the line is truncated to offset `p` exactly when `COMP_POINT`
parses as an integer `p` with `0 < p < len(line)`; for a missing,
non-numeric, zero, negative or out-of-range offset the full line is used;
and the line handed to completion is always a prefix of `COMP_LINE`, so the
truncation never reaches outside the line. -/
theorem c10_complete_started (env : Env) :
    (isCompleteStarted env = none ↔ env.compLine = "") ∧
    (∀ p : Int, env.compLine ≠ "" → atoi env.compPoint = some p →
      0 < p → p < (env.compLine.data.length : Int) →
      isCompleteStarted env = some (String.mk (env.compLine.data.take p.toNat))) ∧
    (env.compLine ≠ "" →
      (∀ p : Int, atoi env.compPoint = some p → ¬(0 < p ∧ p < (env.compLine.data.length : Int))) →
      isCompleteStarted env = some env.compLine) ∧
    (∀ l, isCompleteStarted env = some l →
      l.data.length ≤ env.compLine.data.length ∧
      l.data = env.compLine.data.take l.data.length) := by
  refine ⟨?_, ?_, ?_, ?_⟩
  · constructor
    · intro h
      by_contra hne
      rw [isCompleteStarted, if_neg hne] at h
      split at h
      · split at h <;> simp at h
      · simp at h
    · intro h
      simp [isCompleteStarted, h]
  · intro p hne hp h0 h1
    rw [isCompleteStarted, if_neg hne, hp]
    show (if 0 < p ∧ p < (env.compLine.data.length : Int)
        then some (String.mk (env.compLine.data.take p.toNat))
        else some env.compLine) = some (String.mk (env.compLine.data.take p.toNat))
    rw [if_pos ⟨h0, h1⟩]
  · intro hne hall
    rcases hp : atoi env.compPoint with _ | p
    · rw [isCompleteStarted, if_neg hne, hp]
    · rw [isCompleteStarted, if_neg hne, hp]
      show (if 0 < p ∧ p < (env.compLine.data.length : Int)
          then some (String.mk (env.compLine.data.take p.toNat))
          else some env.compLine) = some env.compLine
      rw [if_neg (hall p hp)]
  · intro l hl
    rw [isCompleteStarted] at hl
    by_cases hne : env.compLine = ""
    · rw [if_pos hne] at hl
      exact absurd hl (by simp)
    · rw [if_neg hne] at hl
      split at hl
      · rename_i point hpoint
        split at hl
        · have hx : l = String.mk (env.compLine.data.take point.toNat) :=
            (Option.some.inj hl).symm
          subst hx
          constructor
          · show (env.compLine.data.take point.toNat).length ≤ env.compLine.data.length
            rw [List.length_take]
            exact min_le_right _ _
          · show env.compLine.data.take point.toNat =
              env.compLine.data.take (env.compLine.data.take point.toNat).length
            exact List.prefix_iff_eq_take.mp (List.take_prefix _ _)
        · have hx : l = env.compLine := (Option.some.inj hl).symm
          subst hx
          simp [List.take_length]
      · have hx : l = env.compLine := (Option.some.inj hl).symm
        subst hx
        simp [List.take_length]

/-- Witness for C10: an in-range offset truncates, an empty `COMP_LINE`
means no completion, an out-of-range offset leaves the line whole. -/
theorem c10_complete_started_witness :
    isCompleteStarted ⟨"prog b x", "6"⟩ = some "prog b" ∧
    isCompleteStarted ⟨"", "3"⟩ = none ∧
    isCompleteStarted ⟨"prog", "99"⟩ = some "prog" := by
  refine ⟨?_, ?_, ?_⟩
  · have h := (c10_complete_started ⟨"prog b x", "6"⟩).2.1 6 (by decide) (by decide)
      (by decide) (by decide)
    rw [h]
    decide
  · exact (c10_complete_started ⟨"", "3"⟩).1.mpr rfl
  · refine (c10_complete_started ⟨"prog", "99"⟩).2.2.1 (by decide) ?_
    intro p hp
    have h99 : atoi "99" = some 99 := by decide
    rw [h99] at hp
    have : p = 99 := (Option.some.inj hp).symm
    subst this
    decide

/-! ## Claim C1 — dispatch over a two-level tree -/

theorem fsParse_nil (s : ResolveState) : fsParse s [] = ({ s with fsArgs := [] }, none) := rfl

/-- Claim C1: for every tree root → {"a": A, "b": B} where B is internal
with the one child {"x": BX} and the matched commands bind cleanly,
`["prog","b"]` fails resolution with "missing sub command" and invokes no
command's `Run`; `["prog","b","x"]` resolves BX and invokes its `Run`
exactly once; `["prog","c"]` resolves no command, renders root help, and
invokes no `Run`. -/
theorem c1_tree_resolution (idA idB idBX : Nat)
    (fA fB fBX : List (FieldInfo × GoType)) (rA rB rBX : Option String)
    (phA phB phBX : Option (List String → Option String))
    (dflt nm ver : String) (auto : Bool) (env : Env)
    (regsB regsBX : List FlagReg)
    (henv : env.compLine = "")
    (hB : defineFlagSet fB "" = (regsB, none))
    (hBX : defineFlagSet fBX "" = (regsBX, none)) :
    (CLI.Run ⟨⟨nm, ver, "", [],
        [("a", .mk idA fA rA none phA),
         ("b", .mk idB fB rB (some [("x", .mk idBX fBX rBX none phBX)]) phB)]⟩, dflt, auto⟩
        env ["prog", "b"]).helpCalls = [(.cmdT idB, some "missing sub command")] ∧
    (CLI.Run ⟨⟨nm, ver, "", [],
        [("a", .mk idA fA rA none phA),
         ("b", .mk idB fB rB (some [("x", .mk idBX fBX rBX none phBX)]) phB)]⟩, dflt, auto⟩
        env ["prog", "b"]).ranIds = [] ∧
    (getSubCommand
        [("a", .mk idA fA rA none phA),
         ("b", .mk idB fB rB (some [("x", .mk idBX fBX rBX none phBX)]) phB)]
        initResolveState "b" ["x"]).2.1 = some (.mk idBX fBX rBX none phBX) ∧
    (CLI.Run ⟨⟨nm, ver, "", [],
        [("a", .mk idA fA rA none phA),
         ("b", .mk idB fB rB (some [("x", .mk idBX fBX rBX none phBX)]) phB)]⟩, dflt, auto⟩
        env ["prog", "b", "x"]).ranIds = [idBX] ∧
    (CLI.Run ⟨⟨nm, ver, "", [],
        [("a", .mk idA fA rA none phA),
         ("b", .mk idB fB rB (some [("x", .mk idBX fBX rBX none phBX)]) phB)]⟩, dflt, auto⟩
        env ["prog", "c"]).helpCalls = [(.rootT, none)] ∧
    (CLI.Run ⟨⟨nm, ver, "", [],
        [("a", .mk idA fA rA none phA),
         ("b", .mk idB fB rB (some [("x", .mk idBX fBX rBX none phBX)]) phB)]⟩, dflt, auto⟩
        env ["prog", "c"]).ranIds = [] := by
  have hnone : isCompleteStarted env = none := by simp [isCompleteStarted, henv]
  have hmiss : getSubCommand
      [("a", Cmd.mk idA fA rA none phA),
       ("b", Cmd.mk idB fB rB (some [("x", Cmd.mk idBX fBX rBX none phBX)]) phB)]
      initResolveState "b" [] =
      (⟨regsB, [], [], ["a", "b"], []⟩,
        some (Cmd.mk idB fB rB (some [("x", Cmd.mk idBX fBX rBX none phBX)]) phB),
        some "missing sub command") := by
    rw [getSubCommand, gscLoop_skip "a" _ _ _ _ _ (by decide),
      gscLoop_missingSub _ _ _ _ regsB [("x", Cmd.mk idBX fBX rBX none phBX)]
        (by simpa [Cmd.fields] using hB) (by simp [Cmd.sub])]
    simp [initResolveState]
  have h0 : gscLoop [("x", Cmd.mk idBX fBX rBX none phBX)] ⟨regsB, [], [], [], []⟩ "x" [] =
      (⟨regsB ++ regsBX, [], [], ["x"], []⟩, some (Cmd.mk idBX fBX rBX none phBX), none) := by
    rw [gscLoop_leaf _ [] _ _ _ regsBX _ none (by simpa [Cmd.fields] using hBX)
      (by simp [Cmd.sub]) (fsParse_nil _)]
    simp
  have hres : getSubCommand
      [("a", Cmd.mk idA fA rA none phA),
       ("b", Cmd.mk idB fB rB (some [("x", Cmd.mk idBX fBX rBX none phBX)]) phB)]
      initResolveState "b" ["x"] =
      (⟨regsB ++ regsBX, [], [], [], []⟩, some (Cmd.mk idBX fBX rBX none phBX), none) := by
    rw [getSubCommand, gscLoop_skip "a" _ _ _ _ _ (by decide)]
    rw [gscLoop_recurse _ _ _ _ _ _ regsB [("x", Cmd.mk idBX fBX rBX none phBX)]
      ⟨regsB ++ regsBX, [], [], ["x"], []⟩ (some (Cmd.mk idBX fBX rBX none phBX)) none
      (by simpa [Cmd.fields] using hB) (by simp [Cmd.sub])
      (by simpa [initResolveState] using h0)]
    simp
  have hnomatch : getSubCommand
      [("a", Cmd.mk idA fA rA none phA),
       ("b", Cmd.mk idB fB rB (some [("x", Cmd.mk idBX fBX rBX none phBX)]) phB)]
      initResolveState "c" [] =
      (⟨[], [], [], ["a", "b"], []⟩, none, none) := by
    rw [getSubCommand, gscLoop_skip "a" _ _ _ _ _ (by decide),
      gscLoop_skip "b" _ _ _ _ _ (by decide), gscLoop_nil]
    simp [initResolveState]
  refine ⟨?_, ?_, ?_, ?_, ?_, ?_⟩
  · simp [CLI.Run, hnone, runArgs, hmiss, helpTOf, Cmd.id]
  · simp [CLI.Run, hnone, runArgs, hmiss]
  · rw [hres]
  · rcases rBX with _ | e <;> simp [CLI.Run, hnone, runArgs, hres, Cmd.runErr, Cmd.id]
  · simp [CLI.Run, hnone, runArgs, hnomatch]
  · simp [CLI.Run, hnone, runArgs, hnomatch]

/-- Witness for C1 at a concrete flagless tree. -/
theorem c1_tree_resolution_witness :
    (CLI.Run ⟨⟨"prog", "1", "", [],
        [("a", .mk 1 [] none none none),
         ("b", .mk 2 [] none (some [("x", .mk 3 [] none none none)]) none)]⟩, "", true⟩
        ⟨"", ""⟩ ["prog", "b"]).helpCalls = [(.cmdT 2, some "missing sub command")] ∧
    (CLI.Run ⟨⟨"prog", "1", "", [],
        [("a", .mk 1 [] none none none),
         ("b", .mk 2 [] none (some [("x", .mk 3 [] none none none)]) none)]⟩, "", true⟩
        ⟨"", ""⟩ ["prog", "b"]).ranIds = [] ∧
    (getSubCommand
        [("a", .mk 1 [] none none none),
         ("b", .mk 2 [] none (some [("x", .mk 3 [] none none none)]) none)]
        initResolveState "b" ["x"]).2.1 = some (.mk 3 [] none none none) ∧
    (CLI.Run ⟨⟨"prog", "1", "", [],
        [("a", .mk 1 [] none none none),
         ("b", .mk 2 [] none (some [("x", .mk 3 [] none none none)]) none)]⟩, "", true⟩
        ⟨"", ""⟩ ["prog", "b", "x"]).ranIds = [3] ∧
    (CLI.Run ⟨⟨"prog", "1", "", [],
        [("a", .mk 1 [] none none none),
         ("b", .mk 2 [] none (some [("x", .mk 3 [] none none none)]) none)]⟩, "", true⟩
        ⟨"", ""⟩ ["prog", "c"]).helpCalls = [(.rootT, none)] ∧
    (CLI.Run ⟨⟨"prog", "1", "", [],
        [("a", .mk 1 [] none none none),
         ("b", .mk 2 [] none (some [("x", .mk 3 [] none none none)]) none)]⟩, "", true⟩
        ⟨"", ""⟩ ["prog", "c"]).ranIds = [] :=
  c1_tree_resolution 1 2 3 [] [] [] none none none none none none "" "prog" "1" true
    ⟨"", ""⟩ [] [] rfl (defineFlagSet_nil "") (defineFlagSet_nil "")

/-! ## Claim C7 — completion mode never runs a command -/

theorem runArgs_complete_ranIds (cli : CLI) (args0 : List String) :
    (runArgs cli true args0).ranIds = [] := by
  rw [runArgs]
  rcases h : (if args0.length = 1 then args0 ++ [cli.defaultCommand] else args0) with
    _ | ⟨p, _ | ⟨a0, rest⟩⟩ <;> simp [emptyOutcome]

/-- Claim C7: whenever completion mode is entered (`COMP_LINE` non-empty),
`Run` dispatches to the completion responder or returns at once, and no
command's `Run(ctx)` is ever invoked. -/
theorem c7_completion_no_run (cli : CLI) (env : Env) (argv : List String) (line : String)
    (h : isCompleteStarted env = some line) :
    (CLI.Run cli env argv).ranIds = [] := by
  rw [CLI.Run, h]
  show (if cli.autoComplete = true then runArgs cli true (goSplit line ' ')
      else emptyOutcome).ranIds = []
  by_cases hac : cli.autoComplete = true
  · rw [if_pos hac]
    exact runArgs_complete_ranIds cli (goSplit line ' ')
  · rw [if_neg hac]
    rfl

/-- Witness for C7: a completion query over a resolvable leaf runs
nothing. -/
theorem c7_completion_no_run_witness :
    isCompleteStarted ⟨"prog b x", ""⟩ = some "prog b x" ∧
    (CLI.Run ⟨⟨"prog", "1", "", [],
        [("b", .mk 2 [] none (some [("x", .mk 3 [] none none none)]) none)]⟩, "", true⟩
      ⟨"prog b x", ""⟩ ["prog", "b", "x"]).ranIds = [] :=
  ⟨by decide,
   c7_completion_no_run _ ⟨"prog b x", ""⟩ ["prog", "b", "x"] "prog b x" (by decide)⟩

/-! ## Claim C8 — completion output -/

/-- Claim C8 counterexample: completing `"prog a "` over the tree
root → {"a": leafA} where leafA carries the flag `verbose`.  The walk fully
resolves the leaf `a` (its parse of the empty remainder succeeds), the leaf
has no children, and the registered flag `verbose` matches the empty
prefix, so the claim requires the flag candidates `["-verbose\n"]`; the
code, whose `lastCommandsName` still holds the sibling list `["a"]`, prints
the command-name candidate `["a\n"]` instead. -/
theorem c8_counterexample :
    specLastNodeSub
        [("a", Cmd.mk 1 [(⟨"verbose, v", true, true⟩, .prim .stringP)] none none none)]
        ["a"] = none ∧
    ((sortFlags (getSubCommand
          [("a", Cmd.mk 1 [(⟨"verbose, v", true, true⟩, .prim .stringP)] none none none)]
          initResolveState "a" [""]).1.flags).filter
        (fun f => startsWith f.name "")).map (fun f => "-" ++ f.name ++ "\n") =
      ["-verbose\n"] ∧
    (CLI.Run ⟨⟨"prog", "1", "", [],
        [("a", Cmd.mk 1 [(⟨"verbose, v", true, true⟩, .prim .stringP)] none none none)]⟩,
        "", true⟩ ⟨"prog a ", ""⟩ ["prog"]).compOut = ["a\n"] ∧
    (["a\n"] : List String) ≠ ["-verbose\n"] := by
  have hb : defineFlagSet [(⟨"verbose, v", true, true⟩, GoType.prim .stringP)] "" =
      ([⟨"verbose", " v", .primReg .stringP⟩], none) := by
    simp [defineFlagSet, bindField, splitN2, GoType.fv, GoType.isStructKind, GoType.primMatch]
  have h1 : getSubCommand
      [("a", Cmd.mk 1 [(⟨"verbose, v", true, true⟩, .prim .stringP)] none none none)]
      initResolveState "a" [""] =
      (⟨[⟨"verbose", " v", .primReg .stringP⟩], [], [""], ["a"], []⟩,
        some (Cmd.mk 1 [(⟨"verbose, v", true, true⟩, .prim .stringP)] none none none),
        none) := by
    rw [getSubCommand,
      gscLoop_leaf _ [] _ _ _ [⟨"verbose", " v", .primReg .stringP⟩]
        ⟨[⟨"verbose", " v", .primReg .stringP⟩], [], [""], ["a"], []⟩ none
        (by simpa [Cmd.fields] using hb) (by simp [Cmd.sub]) (by rfl)]
  have hstart : isCompleteStarted ⟨"prog a ", ""⟩ = some "prog a " := by decide
  have hsplit : goSplit "prog a " ' ' = ["prog", "a", ""] := by decide
  refine ⟨by rfl, ?_, ?_, by decide⟩
  · rw [h1]
    rfl
  · rw [CLI.Run, hstart]
    show (if true = true then
        runArgs ⟨⟨"prog", "1", "", [],
          [("a", Cmd.mk 1 [(⟨"verbose, v", true, true⟩, .prim .stringP)] none none none)]⟩,
          "", true⟩ true (goSplit "prog a " ' ')
      else emptyOutcome).compOut = ["a\n"]
    rw [if_pos rfl, hsplit]
    simp [runArgs, h1, trimLeftDash, startsWith, listIsPre]

/-- Claim C8 (amended): in completion mode the responder prints, one per
line, the candidate names recorded by the resolution walk
(`lastCommandsName`: the child names of the last node scanned without a
completed nested resolution) that have the last token — leading `-`
stripped — as a prefix; only when that recorded list is empty (after a
completed nested sub-command resolution, or an empty tree) does it print
the registered flag names with that prefix, each preceded by `-`.  In
particular a directly-resolved top-level leaf yields command-name
candidates, not its flag names. -/
theorem c8_completion_output (cli : CLI) (env : Env) (argv : List String)
    (line p a0 : String) (rest : List String)
    (h1 : isCompleteStarted env = some line) (h2 : cli.autoComplete = true)
    (h3 : goSplit line ' ' = p :: a0 :: rest) :
    (CLI.Run cli env argv).compOut =
      (if ((getSubCommand cli.root.subCommands initResolveState a0 rest).1.lastCommandsName).isEmpty
        then
          ((sortFlags (getSubCommand cli.root.subCommands initResolveState a0 rest).1.flags).filter
              (fun f => startsWith f.name (trimLeftDash (((a0 :: rest).getLast?).getD a0)))).map
            (fun f => "-" ++ f.name ++ "\n")
        else
          (((getSubCommand cli.root.subCommands initResolveState a0 rest).1.lastCommandsName).filter
              (fun n => startsWith n (trimLeftDash (((a0 :: rest).getLast?).getD a0)))).map
            (fun n => n ++ "\n")) := by
  rw [CLI.Run, h1]
  show (if cli.autoComplete = true then runArgs cli true (goSplit line ' ')
      else emptyOutcome).compOut = _
  rw [if_pos h2, h3, runArgs]
  rw [if_neg (show ¬(p :: a0 :: rest).length = 1 by simp)]
  rfl

/-- Witness for C8 (amended): completing `"prog b x"` under
root → {"b": {"xray", "xml"}} prints both child names. -/
theorem c8_completion_output_witness :
    (CLI.Run ⟨⟨"prog", "1", "", [],
        [("b", Cmd.mk 2 [] none
          (some [("xray", Cmd.mk 3 [] none none none),
                 ("xml", Cmd.mk 4 [] none none none)]) none)]⟩, "", true⟩
      ⟨"prog b x", ""⟩ []).compOut = ["xray\n", "xml\n"] := by
  have h := c8_completion_output ⟨⟨"prog", "1", "", [],
      [("b", Cmd.mk 2 [] none
        (some [("xray", Cmd.mk 3 [] none none none),
               ("xml", Cmd.mk 4 [] none none none)]) none)]⟩, "", true⟩
    ⟨"prog b x", ""⟩ [] "prog b x" "prog" "b" ["x"] (by decide) rfl (by decide)
  rw [h]
  have hx : gscLoop
      [("xray", Cmd.mk 3 [] none none none), ("xml", Cmd.mk 4 [] none none none)]
      ⟨[], [], [], [], []⟩ "x" [] = (⟨[], [], [], ["xray", "xml"], []⟩, none, none) := by
    rw [gscLoop_skip "xray" _ _ _ _ _ (by decide), gscLoop_skip "xml" _ _ _ _ _ (by decide),
      gscLoop_nil]
    rfl
  have h1 : getSubCommand
      [("b", Cmd.mk 2 [] none
        (some [("xray", Cmd.mk 3 [] none none none),
               ("xml", Cmd.mk 4 [] none none none)]) none)]
      initResolveState "b" ["x"] =
      (⟨[], [], [], ["xray", "xml"], []⟩,
        some (Cmd.mk 2 [] none
          (some [("xray", Cmd.mk 3 [] none none none),
                 ("xml", Cmd.mk 4 [] none none none)]) none),
        some "wrong sub command") := by
    rw [getSubCommand,
      gscLoop_recurse _ _ _ _ _ _ []
        [("xray", Cmd.mk 3 [] none none none), ("xml", Cmd.mk 4 [] none none none)]
        ⟨[], [], [], ["xray", "xml"], []⟩ none none
        (by simp [Cmd.fields, defineFlagSet]) (by simp [Cmd.sub])
        (by simpa [initResolveState] using hx)]
    simp [initResolveState]
  rw [h1]
  rfl

/-! ## Claim C9 — one shared flag set along the resolved path -/

/-- Claim C9: resolving a two-level path `b x` registers the internal
ancestor's flags and then the leaf's flags into the one flag set owned by
the CLI, and only then parses the leaf's remaining tokens against that
combined set (first conjunct, for arbitrary command payloads).
Consequently the flag token `-av val` given at the leaf sets the ancestor's
`av` field (second and third conjuncts), and when both levels declare the
flag name `v` the two registrations collide inside the single shared set —
the name appears twice, where the concrete `flag.FlagSet` panics on the
redefinition — instead of staying independent per level (fourth
conjunct). -/
theorem c9_shared_flagset (bname xname : String) (idB idX : Nat)
    (fB fX : List (FieldInfo × GoType)) (rB rX : Option String)
    (phB phX : Option (List String → Option String))
    (rest2 : List String) (regsB regsX : List FlagReg)
    (hB : defineFlagSet fB "" = (regsB, none))
    (hX : defineFlagSet fX "" = (regsX, none)) :
    getSubCommand [(bname, Cmd.mk idB fB rB (some [(xname, Cmd.mk idX fX rX none phX)]) phB)]
        initResolveState bname (xname :: rest2) =
      ({ (fsParse ⟨regsB ++ regsX, [], [], [xname], []⟩ rest2).1 with lastCommandsName := [] },
        some (Cmd.mk idX fX rX none phX),
        (fsParse ⟨regsB ++ regsX, [], [], [xname], []⟩ rest2).2) ∧
    (getSubCommand [("b", Cmd.mk 2 [(⟨"av, ancestor", true, true⟩, .prim .stringP)] none
          (some [("x", Cmd.mk 3 [(⟨"lv, leaf", true, true⟩, .prim .stringP)] none none none)])
          none)]
        initResolveState "b" ["x", "-av", "val"]).1.assigns = [("av", "val")] ∧
    (getSubCommand [("b", Cmd.mk 2 [(⟨"av, ancestor", true, true⟩, .prim .stringP)] none
          (some [("x", Cmd.mk 3 [(⟨"lv, leaf", true, true⟩, .prim .stringP)] none none none)])
          none)]
        initResolveState "b" ["x", "-av", "val"]).1.flags.map FlagReg.name = ["av", "lv"] ∧
    (getSubCommand [("b", Cmd.mk 2 [(⟨"v, bee", true, true⟩, .prim .stringP)] none
          (some [("x", Cmd.mk 3 [(⟨"v, ex", true, true⟩, .prim .stringP)] none none none)])
          none)]
        initResolveState "b" ["x"]).1.flags.map FlagReg.name = ["v", "v"] := by
  have hkey : ∀ (bn xn : String) (iB iX : Nat) (fB' fX' : List (FieldInfo × GoType))
      (rB' rX' : Option String) (phB' phX' : Option (List String → Option String))
      (rest' : List String) (rgB rgX : List FlagReg),
      defineFlagSet fB' "" = (rgB, none) → defineFlagSet fX' "" = (rgX, none) →
      getSubCommand [(bn, Cmd.mk iB fB' rB' (some [(xn, Cmd.mk iX fX' rX' none phX')]) phB')]
          initResolveState bn (xn :: rest') =
        ({ (fsParse ⟨rgB ++ rgX, [], [], [xn], []⟩ rest').1 with lastCommandsName := [] },
          some (Cmd.mk iX fX' rX' none phX'),
          (fsParse ⟨rgB ++ rgX, [], [], [xn], []⟩ rest').2) := by
    intro bn xn iB iX fB' fX' rB' rX' phB' phX' rest' rgB rgX hB' hX'
    rcases hpr : fsParse ⟨rgB ++ rgX, [], [], [xn], []⟩ rest' with ⟨ps, perr⟩
    have hdesc : gscLoop [(xn, Cmd.mk iX fX' rX' none phX')]
        ⟨rgB, [], [], [], []⟩ xn rest' = (ps, some (Cmd.mk iX fX' rX' none phX'), perr) := by
      rw [gscLoop_leaf _ [] _ _ _ rgX ps perr (by simpa [Cmd.fields] using hX')
        (by simp [Cmd.sub]) (by simpa using hpr)]
    rw [getSubCommand, gscLoop_recurse _ _ _ _ _ _ rgB [(xn, Cmd.mk iX fX' rX' none phX')]
      ps (some (Cmd.mk iX fX' rX' none phX')) perr (by simpa [Cmd.fields] using hB')
      (by simp [Cmd.sub]) (by simpa [initResolveState] using hdesc)]
    rcases perr with _ | e <;> simp [hpr]
  have dAv : defineFlagSet [(⟨"av, ancestor", true, true⟩, GoType.prim .stringP)] "" =
      ([⟨"av", " ancestor", .primReg .stringP⟩], none) := by
    simp [defineFlagSet, bindField, splitN2, GoType.fv, GoType.isStructKind, GoType.primMatch]
  have dLv : defineFlagSet [(⟨"lv, leaf", true, true⟩, GoType.prim .stringP)] "" =
      ([⟨"lv", " leaf", .primReg .stringP⟩], none) := by
    simp [defineFlagSet, bindField, splitN2, GoType.fv, GoType.isStructKind, GoType.primMatch]
  have dVb : defineFlagSet [(⟨"v, bee", true, true⟩, GoType.prim .stringP)] "" =
      ([⟨"v", " bee", .primReg .stringP⟩], none) := by
    simp [defineFlagSet, bindField, splitN2, GoType.fv, GoType.isStructKind, GoType.primMatch]
  have dVx : defineFlagSet [(⟨"v, ex", true, true⟩, GoType.prim .stringP)] "" =
      ([⟨"v", " ex", .primReg .stringP⟩], none) := by
    simp [defineFlagSet, bindField, splitN2, GoType.fv, GoType.isStructKind, GoType.primMatch]
  refine ⟨hkey bname xname idB idX fB fX rB rX phB phX rest2 regsB regsX hB hX, ?_, ?_, ?_⟩
  · rw [hkey "b" "x" 2 3 _ _ none none none none ["-av", "val"] _ _ dAv dLv]
    rfl
  · rw [hkey "b" "x" 2 3 _ _ none none none none ["-av", "val"] _ _ dAv dLv]
    rfl
  · rw [hkey "b" "x" 2 3 _ _ none none none none [] _ _ dVb dVx]
    rfl

/-- Witness for C9's general conjunct at concrete payloads. -/
theorem c9_shared_flagset_witness :
    (getSubCommand [("b", Cmd.mk 2 [(⟨"av, ancestor", true, true⟩, .prim .stringP)] none
          (some [("x", Cmd.mk 3 [(⟨"lv, leaf", true, true⟩, .prim .stringP)] none none none)])
          none)]
        initResolveState "b" ["x", "-av", "val"]).1.assigns = [("av", "val")] :=
  (c9_shared_flagset "b" "x" 2 3
    [(⟨"av, ancestor", true, true⟩, .prim .stringP)]
    [(⟨"lv, leaf", true, true⟩, .prim .stringP)] none none none none ["-av", "val"]
    [⟨"av", " ancestor", .primReg .stringP⟩] [⟨"lv", " leaf", .primReg .stringP⟩]
    (by simp [defineFlagSet, bindField, splitN2, GoType.fv, GoType.isStructKind,
      GoType.primMatch])
    (by simp [defineFlagSet, bindField, splitN2, GoType.fv, GoType.isStructKind,
      GoType.primMatch])).2.1

/-! ## Claim C2 — the ParseHelper capability (spec-modelled) -/

theorem gscLoopPH_leaf_ok (c : Cmd) (es : List (String × Cmd)) (s : ResolveState)
    (a0 : String) (rest : List String) (regs : List FlagReg) (ps : ResolveState)
    (h : List String → Option String)
    (hb : defineFlagSet c.fields "" = (regs, none)) (hs : c.sub = none)
    (hph : c.ph = some h)
    (hp : fsParse { s with flags := s.flags ++ regs,
                           lastCommandsName := s.lastCommandsName ++ [a0] } rest = (ps, none)) :
    gscLoopPH ((a0, c) :: es) s a0 rest =
      ({ ps with phCalls := ps.phCalls ++ [(c.id, ps.fsArgs)] }, some c, h ps.fsArgs) := by
  rw [gscLoopPH]
  simp only [getFlagSet, hb, hs, hph, ↓reduceIte]
  rw [hp]
  rcases hh : h ps.fsArgs with _ | e <;> simp [hh]

theorem gscLoopPH_leaf_perr (c : Cmd) (es : List (String × Cmd)) (s : ResolveState)
    (a0 : String) (rest : List String) (regs : List FlagReg) (ps : ResolveState) (e : String)
    (hb : defineFlagSet c.fields "" = (regs, none)) (hs : c.sub = none)
    (hp : fsParse { s with flags := s.flags ++ regs,
                           lastCommandsName := s.lastCommandsName ++ [a0] } rest = (ps, some e)) :
    gscLoopPH ((a0, c) :: es) s a0 rest = (ps, some c, some e) := by
  rw [gscLoopPH]
  simp only [getFlagSet, hb, hs, ↓reduceIte]
  rw [hp]

/-- Claim C2 (modelled from the spec — the ParseHelper invocation site is
absent from the sources, only the interface declaration exists): for every
resolved leaf that also implements ParseHelper, after automatic flag parsing
succeeds the custom `Parse` is invoked with the remaining non-flag arguments
(`fs.Args()`), its error becomes the resolution error attached to the leaf,
`Run` is invoked exactly when it returns no error, and its failure is
reported exactly like a flag-parse failure (leaf-scoped help, no `Run`). -/
theorem c2_parse_helper (idC : Nat) (fC : List (FieldInfo × GoType)) (rC : Option String)
    (h : List String → Option String) (nm dflt ver pname : String) (auto : Bool) (env : Env)
    (rest : List String) (regsC : List FlagReg) (ps : ResolveState)
    (henv : env.compLine = "")
    (hreg : defineFlagSet fC "" = (regsC, none))
    (hparse : fsParse ⟨regsC, [], [], [nm], []⟩ rest = (ps, none)) :
    getSubCommandPH [(nm, Cmd.mk idC fC rC none (some h))] initResolveState nm rest =
      ({ ps with phCalls := ps.phCalls ++ [(idC, ps.fsArgs)] },
        some (Cmd.mk idC fC rC none (some h)), h ps.fsArgs) ∧
    (h ps.fsArgs = none →
      (CLI.RunPH ⟨⟨pname, ver, "", [], [(nm, Cmd.mk idC fC rC none (some h))]⟩, dflt, auto⟩
        env ("prog" :: nm :: rest)).ranIds = [idC]) ∧
    (∀ e, h ps.fsArgs = some e →
      (CLI.RunPH ⟨⟨pname, ver, "", [], [(nm, Cmd.mk idC fC rC none (some h))]⟩, dflt, auto⟩
          env ("prog" :: nm :: rest)).ranIds = [] ∧
      (CLI.RunPH ⟨⟨pname, ver, "", [], [(nm, Cmd.mk idC fC rC none (some h))]⟩, dflt, auto⟩
          env ("prog" :: nm :: rest)).helpCalls = [(.cmdT idC, some e)]) ∧
    (∀ (rest' : List String) (ps' : ResolveState) (e' : String),
      fsParse ⟨regsC, [], [], [nm], []⟩ rest' = (ps', some e') →
      (CLI.RunPH ⟨⟨pname, ver, "", [], [(nm, Cmd.mk idC fC rC none (some h))]⟩, dflt, auto⟩
          env ("prog" :: nm :: rest')).ranIds = [] ∧
      (CLI.RunPH ⟨⟨pname, ver, "", [], [(nm, Cmd.mk idC fC rC none (some h))]⟩, dflt, auto⟩
          env ("prog" :: nm :: rest')).helpCalls = [(.cmdT idC, some e')]) := by
  have hnone : isCompleteStarted env = none := by simp [isCompleteStarted, henv]
  have ha : getSubCommandPH [(nm, Cmd.mk idC fC rC none (some h))] initResolveState nm rest =
      ({ ps with phCalls := ps.phCalls ++ [(idC, ps.fsArgs)] },
        some (Cmd.mk idC fC rC none (some h)), h ps.fsArgs) := by
    rw [getSubCommandPH,
      gscLoopPH_leaf_ok _ [] _ _ _ regsC ps h (by simpa [Cmd.fields] using hreg)
        (by simp [Cmd.sub]) (by simp [Cmd.ph]) (by simpa [initResolveState] using hparse)]
    simp [Cmd.id, initResolveState]
  refine ⟨ha, ?_, ?_, ?_⟩
  · intro hok
    rcases rC with _ | e <;>
      simp [CLI.RunPH, hnone, runArgsPH, ha, hok, Cmd.id, Cmd.runErr]
  · intro e he
    constructor <;> simp [CLI.RunPH, hnone, runArgsPH, ha, he, helpTOf, Cmd.id]
  · intro rest' ps' e' hp'
    have hres : getSubCommandPH [(nm, Cmd.mk idC fC rC none (some h))]
        initResolveState nm rest' =
        (ps', some (Cmd.mk idC fC rC none (some h)), some e') := by
      rw [getSubCommandPH,
        gscLoopPH_leaf_perr _ [] _ _ _ regsC ps' e' (by simpa [Cmd.fields] using hreg)
          (by simp [Cmd.sub]) (by simpa [initResolveState] using hp')]
    constructor <;> simp [CLI.RunPH, hnone, runArgsPH, hres, helpTOf, Cmd.id]

/-- Witness for C2: a helper that accepts exactly the remainder
`["pos1"]` lets the leaf run; the resolver recorded the helper call with
`fs.Args()`. -/
theorem c2_parse_helper_witness :
    (CLI.RunPH ⟨⟨"p", "1", "", [],
        [("e", Cmd.mk 5 [] none none
          (some (fun args => if args = ["pos1"] then none else some "helper failed")))]⟩,
        "", true⟩ ⟨"", ""⟩ ["prog", "e", "pos1"]).ranIds = [5] ∧
    (getSubCommandPH [("e", Cmd.mk 5 [] none none
        (some (fun args => if args = ["pos1"] then none else some "helper failed")))]
        initResolveState "e" ["pos1"]).1.phCalls = [(5, ["pos1"])] := by
  have hk := c2_parse_helper 5 [] none
    (fun args => if args = ["pos1"] then none else some "helper failed")
    "e" "" "1" "p" true ⟨"", ""⟩ ["pos1"] [] ⟨[], [], ["pos1"], ["e"], []⟩
    rfl (defineFlagSet_nil "") (by rfl)
  refine ⟨hk.2.1 (by simp), ?_⟩
  rw [hk.1]
  rfl

end AkCli
